import Mathlib

/-!
Verification of the job-orchestration and asset-resolution core of the
FashionAIDashboard repository.  JavaScript strings are modelled as `List Char`
(`Str`); machine integers do not occur.  Every route handler is embedded as a
pure function over an explicit context (`Ctx` / `AssetSys`) carrying the
filesystem, the environment and the platform, and the side effects a handler
performs (mkdir, file writes, process spawns, stat checks, file reads) are
returned as an explicit `Effect` list.
-/

namespace Fashion

/-- Strings of the JavaScript sources, modelled as lists of characters. -/
abbrev Str := List Char

/-- Coercion from Lean string literals to the `Str` model. -/
def str (s : String) : Str := s.data

/-- Filesystem oracle on which no path exists. -/
def noFiles : Str → Bool := fun _ => false

/-- Filesystem oracle on which every path exists. -/
def allFiles : Str → Bool := fun _ => true

/-! ## Basic string operations mirroring the JavaScript built-ins used -/

/-- Model of `s.replace(/\\/g, "/")`: every backslash becomes a forward slash. -/
def replaceBackslashes (s : Str) : Str :=
  s.map (fun c => if c == '\\' then '/' else c)

/-- ASCII letter test, mirroring the character class `[A-Za-z]`. -/
def isAsciiLetter (c : Char) : Bool :=
  ('A' ≤ c && c ≤ 'Z') || ('a' ≤ c && c ≤ 'z')

/-- Model of `s.replace(/^[A-Za-z]:/, "")`: strip one leading drive-letter pair. -/
def stripDriveLetter : Str → Str
  | a :: b :: rest => if isAsciiLetter a && b == ':' then rest else a :: b :: rest
  | s => s

/-- Model of `s.replace(/^\/+/, "")`: strip every leading forward slash. -/
def stripLeadingSlashes : Str → Str
  | '/' :: rest => stripLeadingSlashes rest
  | s => s

/-- Test for a leading `[A-Za-z]:` drive pair. -/
def hasDriveLetter : Str → Bool
  | a :: b :: _ => isAsciiLetter a && b == ':'
  | _ => false

/-- List-valued model of `String.prototype.startsWith`. -/
def startsWithList : Str → Str → Bool
  | [], _ => true
  | _ :: _, [] => false
  | p :: ps, c :: cs => p == c && startsWithList ps cs

/-- Model of `String.prototype.includes` for a fixed search string. -/
def containsSub (pat : Str) : Str → Bool
  | [] => pat.isEmpty
  | c :: cs => startsWithList pat (c :: cs) || containsSub pat cs

/-- Model of `String.prototype.split` with a single-character separator. -/
def jsSplit (sep : Char) : Str → List Str
  | [] => [[]]
  | c :: cs =>
    let r := jsSplit sep cs
    if c == sep then [] :: r
    else
      match r with
      | [] => [[c]]
      | g :: gs => (c :: g) :: gs

/-- Whitespace class of the JavaScript regular expressions (`\s`), restricted
to the code points the orchestrator's worker output can contain. -/
def isJsWS (c : Char) : Bool :=
  c == ' ' || c == '\t' || c == '\n' || c == '\r' ||
  c == Char.ofNat 0x0b || c == Char.ofNat 0x0c || c == Char.ofNat 0xa0

/-- Model of `String.prototype.trim`. -/
def jsTrim (s : Str) : Str :=
  ((s.dropWhile isJsWS).reverse.dropWhile isJsWS).reverse

/-- JavaScript truthiness of an optional string value (`null`/`undefined` and
the empty string are falsy). -/
def jsTruthy : Option Str → Bool
  | none => false
  | some s => !s.isEmpty

/-- Model of `a || dflt` on an optional string with a string default. -/
def jsOrStr (a : Option Str) (dflt : Str) : Str :=
  match a with
  | some s => if s.isEmpty then dflt else s
  | none => dflt

/-- Model of `a || b` on two optional strings. -/
def jsOrOpt (a b : Option Str) : Option Str :=
  if jsTruthy a then a else b

/-- Model of `a || "d"` producing an always-present default. -/
def jsOrOptD (a : Option Str) (d : Str) : Option Str :=
  if jsTruthy a then a else some d

/-! ## Percent-encoding (`encodeURIComponent`) and query-parameter decoding -/

/-- Characters `encodeURIComponent` leaves unescaped. -/
def isUnreservedURI (c : Char) : Bool :=
  isAsciiLetter c || ('0' ≤ c && c ≤ '9') ||
  c == '-' || c == '_' || c == '.' || c == '!' || c == '~' ||
  c == '*' || c == Char.ofNat 39 || c == '(' || c == ')'

/-- UTF-8 byte sequence of a code point, as `encodeURIComponent` produces it. -/
def utf8EncodeChar (n : Nat) : List Nat :=
  if n < 0x80 then [n]
  else if n < 0x800 then [0xC0 + n / 64, 0x80 + n % 64]
  else if n < 0x10000 then
    [0xE0 + n / 4096, 0x80 + (n / 64) % 64, 0x80 + n % 64]
  else
    [0xF0 + n / 262144, 0x80 + (n / 4096) % 64, 0x80 + (n / 64) % 64, 0x80 + n % 64]

/-- UTF-8 bytes of a whole string. -/
def utf8EncodeList (s : Str) : List Nat :=
  s.flatMap (fun c => utf8EncodeChar c.toNat)

/-- Uppercase hexadecimal digit, as used in percent-escapes. -/
def hexUpper (n : Nat) : Char :=
  if n < 10 then Char.ofNat ('0'.toNat + n) else Char.ofNat ('A'.toNat + n - 10)

/-- Percent-escape of one byte. -/
def pctEncodeByte (b : Nat) : List Char :=
  ['%', hexUpper (b / 16), hexUpper (b % 16)]

/-- Model of the JavaScript built-in `encodeURIComponent`. -/
def encodeURIComponent (s : Str) : Str :=
  s.flatMap (fun c =>
    if isUnreservedURI c then [c]
    else (utf8EncodeChar c.toNat).flatMap pctEncodeByte)

/-- Value of a hexadecimal digit character. -/
def hexVal (c : Char) : Option Nat :=
  if '0' ≤ c && c ≤ '9' then some (c.toNat - '0'.toNat)
  else if 'A' ≤ c && c ≤ 'F' then some (c.toNat - 'A'.toNat + 10)
  else if 'a' ≤ c && c ≤ 'f' then some (c.toNat - 'a'.toNat + 10)
  else none

/-- Byte-level phase of query-parameter decoding: percent-escapes become raw
bytes, `+` becomes a space (form decoding, as `URLSearchParams.get` performs),
and any other character contributes its UTF-8 bytes.  Malformed escapes yield
`none`, modelling the `URIError` the JavaScript runtime raises. -/
def pctDecodeBytes : List Char → Option (List Nat)
  | [] => some []
  | c :: rest =>
    if c == '%' then
      match rest with
      | h1 :: h2 :: rest2 =>
        match hexVal h1, hexVal h2 with
        | some a, some b => (pctDecodeBytes rest2).map (fun r => (16 * a + b) :: r)
        | _, _ => none
      | _ => none
    else if c == '+' then
      (pctDecodeBytes rest).map (fun r => 32 :: r)
    else
      (pctDecodeBytes rest).map (fun r => utf8EncodeChar c.toNat ++ r)

/-- Single step of the strict UTF-8 decoder (rejects truncated, overlong and
surrogate forms): decode one character from the front, returning it with the
unconsumed remainder. -/
def utf8DecodeOne : List Nat → Option (Char × List Nat)
  | [] => none
  | b0 :: rest =>
    if b0 < 0x80 then some (Char.ofNat b0, rest)
    else if b0 < 0xC2 then none
    else if b0 < 0xE0 then
      match rest with
      | b1 :: rest2 =>
        if 0x80 ≤ b1 ∧ b1 < 0xC0 then
          some (Char.ofNat ((b0 - 0xC0) * 64 + (b1 - 0x80)), rest2)
        else none
      | [] => none
    else if b0 < 0xF0 then
      match rest with
      | b1 :: b2 :: rest3 =>
        if (0x80 ≤ b1 ∧ b1 < 0xC0) ∧ (0x80 ≤ b2 ∧ b2 < 0xC0) ∧
            ¬(b0 = 0xE0 ∧ b1 < 0xA0) ∧ ¬(b0 = 0xED ∧ 0xA0 ≤ b1) then
          some (Char.ofNat ((b0 - 0xE0) * 4096 + (b1 - 0x80) * 64 + (b2 - 0x80)), rest3)
        else none
      | _ => none
    else if b0 < 0xF5 then
      match rest with
      | b1 :: b2 :: b3 :: rest4 =>
        if (0x80 ≤ b1 ∧ b1 < 0xC0) ∧ (0x80 ≤ b2 ∧ b2 < 0xC0) ∧ (0x80 ≤ b3 ∧ b3 < 0xC0) ∧
            ¬(b0 = 0xF0 ∧ b1 < 0x90) ∧ ¬(b0 = 0xF4 ∧ 0x90 ≤ b1) then
          some (Char.ofNat ((b0 - 0xF0) * 262144 + (b1 - 0x80) * 4096 +
            (b2 - 0x80) * 64 + (b3 - 0x80)), rest4)
        else none
      | _ => none
    else none

set_option maxRecDepth 8000 in
/-- Consumption bound justifying the recursion of the list decoder. -/
theorem utf8DecodeOne_length : ∀ {bs : List Nat} {c : Char} {rest : List Nat},
    utf8DecodeOne bs = some (c, rest) → rest.length < bs.length := by
  intro bs c rest h
  match bs with
  | [] => exact absurd h (by simp [utf8DecodeOne])
  | b0 :: tail =>
    rw [utf8DecodeOne.eq_def] at h
    dsimp only at h
    repeat' split at h
    all_goals cases h <;> simp <;> omega

/-- Strict UTF-8 decoding of a whole byte list, modelling how the runtime
turns the percent-decoded bytes back into a string. -/
def utf8DecodeList (bs : List Nat) : Option (List Char) :=
  if bs.isEmpty then some []
  else
    match hone : utf8DecodeOne bs with
    | some (c, rest) => (utf8DecodeList rest).map (fun r => c :: r)
    | none => none
termination_by bs.length
decreasing_by exact utf8DecodeOne_length hone

/-- Full decoding of a query-parameter value, as `url.searchParams.get` does. -/
def formDecode (s : Str) : Option Str :=
  (pctDecodeBytes s).bind utf8DecodeList

/-! ## Path Normalizer (`normalizeForBrowser`, identical in the three routes) -/

/-- Fixed route base the normalizer emits, `/api/assets?path=`. -/
def assetsBase : Str := str "/api/assets?path="

/-- Model of `normalizeForBrowser` from the virtual-showcase, runway and
flatlay route files: replace backslashes, strip a leading drive-letter pair,
strip leading slashes, then wrap the percent-encoded remainder in the asset
route.  The source applies these steps unconditionally to every input. -/
def normalizeForBrowser (p : Str) : Str :=
  let s := stripLeadingSlashes (stripDriveLetter (replaceBackslashes p))
  assetsBase ++ encodeURIComponent s

/-- Decode step of the Secure Asset Resolver applied to a reference of the
shape the normalizer emits: extract the `path` query parameter (the suffix
after `/api/assets?path=`), form-decode it, then normalize backslashes and
strip leading slashes exactly as `GET /api/assets` does. -/
def assetDecodeStep (ref : Str) : Option Str :=
  if startsWithList assetsBase ref then
    (formDecode (ref.drop assetsBase.length)).map
      (fun raw => stripLeadingSlashes (replaceBackslashes raw))
  else none

/-- Test for the `^https?://` pattern of the specification. -/
def startsHttp (p : Str) : Bool :=
  startsWithList (str "http://") p || startsWithList (str "https://") p

/-- Relative-path test: no leading slash or backslash and no drive-letter pair. -/
def isRelativePath (p : Str) : Bool :=
  (match p with
   | [] => true
   | c :: _ => !(c == '/') && !(c == '\\')) && !(hasDriveLetter p)

/-! ## Output Artifact Extractor: the route-specific `combined.match(...)` calls

The regular expressions of the four routes use only literals, an optional
group, `\s*`, greedy `+` over a character class, and a short alternation of
file extensions.  They are embedded as backtracking scanners: a pattern is
tried at every start position from the left (as `String.prototype.match`
does), and greedy repetition backtracks from the longest possible run. -/

/-- Case-insensitive character comparison, for the `/i` flag. -/
def charCI (a b : Char) : Bool := a.toLower == b.toLower

/-- Consume a literal case-insensitively, returning the remainder. -/
def stripCI : Str → Str → Option Str
  | [], cs => some cs
  | _ :: _, [] => none
  | p :: ps, c :: cs => if charCI p c then stripCI ps cs else none

/-- Consume a literal case-sensitively, returning the remainder. -/
def stripLit : Str → Str → Option Str
  | [], cs => some cs
  | _ :: _, [] => none
  | p :: ps, c :: cs => if p == c then stripLit ps cs else none

/-- Character class `[^\s'"]` of the saved-path patterns. -/
def isFileCh (c : Char) : Bool :=
  !(isJsWS c) && !(c == Char.ofNat 39) && !(c == '"')

/-- Character class of the `.` metacharacter (anything but a line break). -/
def isDotCh (c : Char) : Bool :=
  !(c == '\n') && !(c == '\r') && !(c == Char.ofNat 0x2028) && !(c == Char.ofNat 0x2029)

/-- Backtracking over the split points of a greedy `+`: try taking `k`
characters, longest first, never zero. -/
def trySplitsPos (g : Str → Str → Option Str) (cs : Str) : Nat → Option Str
  | 0 => none
  | k + 1 =>
    match g (cs.take (k + 1)) (cs.drop (k + 1)) with
    | some r => some r
    | none => trySplitsPos g cs k

/-- Backtracking over the split points of a greedy `*`: also tries zero. -/
def trySplitsStar (g : Str → Str → Option Str) (cs : Str) : Nat → Option Str
  | 0 => g [] cs
  | k + 1 =>
    match g (cs.take (k + 1)) (cs.drop (k + 1)) with
    | some r => some r
    | none => trySplitsStar g cs k

/-- Greedy `p+` followed by continuation `g consumed rest`. -/
def greedyPlus (p : Char → Bool) (cs : Str) (g : Str → Str → Option Str) : Option Str :=
  trySplitsPos g cs (cs.takeWhile p).length

/-- Greedy `p*` followed by continuation `g consumed rest`. -/
def greedyStar (p : Char → Bool) (cs : Str) (g : Str → Str → Option Str) : Option Str :=
  trySplitsStar g cs (cs.takeWhile p).length

/-- Ordered case-insensitive alternation of literals, returning the consumed
slice of the input (original case) and the remainder. -/
def matchAltCI (alts : List Str) (cs : Str) : Option (Str × Str) :=
  match alts with
  | [] => none
  | a :: rest =>
    match stripCI a cs with
    | some r => some (cs.take a.length, r)
    | none => matchAltCI rest cs

/-- Capture of `[^\s'"]+\.(?:ext alternation)`. -/
def fileCapture (exts : List Str) (cs : Str) : Option Str :=
  greedyPlus isFileCh cs (fun consumed rest =>
    match stripLit (str ".") rest with
    | none => none
    | some rest2 =>
      match matchAltCI exts rest2 with
      | some (ext, _) => some (consumed ++ str "." ++ ext)
      | none => none)

/-- Capture of `dir[^\s'"]+\.(?:ext alternation)` for a literal directory. -/
def dirFileCapture (dir : Str) (exts : List Str) (cs : Str) : Option Str :=
  match stripCI dir cs with
  | none => none
  | some rest => (fileCapture exts rest).map (fun cap => cs.take dir.length ++ cap)

/-- Capture of `.+\.(?:ext alternation)` (flatlay pattern). -/
def dotFileCapture (exts : List Str) (cs : Str) : Option Str :=
  greedyPlus isDotCh cs (fun consumed rest =>
    match stripLit (str ".") rest with
    | none => none
    | some rest2 =>
      match matchAltCI exts rest2 with
      | some (ext, _) => some (consumed ++ str "." ++ ext)
      | none => none)

/-- Scan for the first position where a pattern matches, left to right. -/
def findAt (f : Str → Option Str) : Str → Option Str
  | [] => f []
  | c :: cs =>
    match f (c :: cs) with
    | some r => some r
    | none => findAt f cs

/-- Image-extension alternation `(?:png|jpe?g)` in backtracking order. -/
def imgExts : List Str := [str "png", str "jpeg", str "jpg"]

/-- Image-extension alternation `(?:png|jpg|jpeg)` of the flatlay route. -/
def imgExtsFlat : List Str := [str "png", str "jpg", str "jpeg"]

/-- Showcase pattern `/Saved(?: showcase image)?:\s*([^\s'"]+\.(?:png|jpe?g))/i`
at one position. -/
def showcaseAt1 (cs : Str) : Option Str :=
  match stripCI (str "saved") cs with
  | none => none
  | some cs1 =>
    let cont := fun csx =>
      match stripCI (str ":") csx with
      | none => none
      | some cs2 => fileCapture imgExts (cs2.dropWhile isJsWS)
    match stripCI (str " showcase image") cs1 with
    | some cs2 =>
      match cont cs2 with
      | some r => some r
      | none => cont cs1
    | none => cont cs1

/-- Pattern `/Saved:\s*(DIR[^\s'"]+\.EXTS)/i` at one position. -/
def savedDirAt (dir : Str) (exts : List Str) (cs : Str) : Option Str :=
  match stripCI (str "saved:") cs with
  | none => none
  | some cs1 => dirFileCapture dir exts (cs1.dropWhile isJsWS)

/-- Pattern `/Saved video:\s*([^\s'"]+\.mp4)/i` at one position. -/
def savedVideoAt (cs : Str) : Option Str :=
  match stripCI (str "saved video:") cs with
  | none => none
  | some cs1 => fileCapture [str "mp4"] (cs1.dropWhile isJsWS)

/-- Flatlay pattern `/Saved:? (.+\.(?:png|jpg|jpeg))/i` at one position: the
colon is optional and a single literal space follows it. -/
def flatlayAt (cs : Str) : Option Str :=
  match stripCI (str "saved") cs with
  | none => none
  | some cs1 =>
    let cont := fun csx =>
      match stripLit (str " ") csx with
      | none => none
      | some cs2 => dotFileCapture imgExtsFlat cs2
    match stripCI (str ":") cs1 with
    | some cs2 =>
      match cont cs2 with
      | some r => some r
      | none => cont cs1
    | none => cont cs1

/-- Apply-change pattern `/Wrote:\s*(.+)/` (case-sensitive) at one position. -/
def wroteAt (cs : Str) : Option Str :=
  match stripLit (str "Wrote:") cs with
  | none => none
  | some cs1 =>
    greedyStar isJsWS cs1 (fun _ rest =>
      match rest with
      | [] => none
      | c :: _ => if isDotCh c then some (rest.takeWhile isDotCh) else none)

/-- Combined matcher of the virtual-showcase route, in source order. -/
def showcaseMatch (cs : Str) : Option Str :=
  match findAt showcaseAt1 cs with
  | some r => some r
  | none =>
    match findAt (savedDirAt (str "renders/") imgExts) cs with
    | some r => some r
    | none => findAt (savedDirAt (str "output/") imgExts) cs

/-- Combined matcher of the runway route, in source order. -/
def runwayMatch (cs : Str) : Option Str :=
  match findAt savedVideoAt cs with
  | some r => some r
  | none =>
    match findAt (savedDirAt (str "output/") [str "mp4"]) cs with
    | some r => some r
    | none => findAt (savedDirAt (str "renders/") [str "mp4"]) cs

/-- Matcher of the flatlay route. -/
def flatlayMatch (cs : Str) : Option Str :=
  findAt flatlayAt cs

/-- Matcher of the apply-change route (`stdout.match(/Wrote:\s*(.+)/)`). -/
def wroteMatch (cs : Str) : Option Str :=
  findAt wroteAt cs

/-! ## Data model of the Job Request Handlers -/

/-- Design document: the orchestrator inspects only `design_id`; the rest of
the document is opaque and only round-tripped through serialization. -/
structure Design where
  design_id : Option Str := none
  rest : List (Str × Str) := []

/-- Identifier string interpolated into staging and fallback file names. -/
def designIdStr (d : Design) : Str := d.design_id.getD []

/-- Parsed JSON body of a job request. -/
structure JobBody where
  design : Option Design := none
  modelConfig : Option (List (Str × Str)) := none
  reference : Option Str := none
  textChange : Option Str := none

/-- Captured outcome of one worker invocation: `close(code)` plus the
accumulated stdout and stderr texts.  `none` models a null exit code. -/
structure WorkerOutcome where
  exitCode : Option Int := some 0
  stdout : Str := []
  stderr : Str := []

/-- Side effects a handler performs, in order. -/
inductive Effect where
  | mkdirTemp : Effect
  | writeFileE (path : Str) (content : Str) : Effect
  | spawn (exe : Str) (args : List Str) : Effect
  | statCheck (path : Str) : Effect
  | readFileE (path : Str) : Effect
deriving DecidableEq, Repr

/-- JSON response envelope of the job routes (fields absent from a given
response are `none`). -/
structure ApiResponse where
  status : Nat := 200
  success : Bool
  error : Option Str := none
  message : Option Str := none
  imageUrl : Option Str := none
  videoUrl : Option Str := none
  duration : Option Str := none
  raw_stdout : Option Str := none
  raw_stderr : Option Str := none
  design : Option Str := none
  reportedPath : Option Str := none
  tried : Option (List Str) := none
  details : Option Str := none
  finalPath : Option Str := none
deriving DecidableEq, Repr

/-- Execution context of a route handler: filesystem and environment oracles,
platform flag, request clock, request headers, and the opaque JavaScript
built-ins the routes call (URL parsing, JSON serialization and parsing). -/
structure Ctx where
  fs : Str → Bool := noFiles
  pythonPathEnv : Option Str := none
  isWin : Bool := false
  cwd : Str := []
  now : Nat := 0
  headers : Str → Option Str := fun _ => none
  parseUrl : Str → Option Str := fun _ => none
  urlProtocol : Str → Str := fun _ => str "http"
  stringifyDesign : Design → Str := fun _ => []
  jsonOfPairs : List (Str × Str) → Str := fun _ => []
  parseJson : Str → Option Str := fun _ => none
  readFile : Str → Str := fun _ => []
  isAbsolutePath : Str → Bool := fun _ => false

/-- Platform path separator (`path.sep`). -/
def ctxSep (c : Ctx) : Char := if c.isWin then '\\' else '/'

/-- Model of `path.join` on two components. -/
def joinP (c : Ctx) (a b : Str) : Str := a ++ [ctxSep c] ++ b

/-- Decimal rendering of a number interpolated into a template literal. -/
def natStr (n : Nat) : Str := (Nat.repr n).data

/-- Rendering of a possibly-null exit code inside a template literal. -/
def showExitCode : Option Int → Str
  | some i => (toString i).data
  | none => str "null"

/-! ## Worker selection (`getPythonExecutable`, three distinct variants) -/

/-- Windows virtual-environment interpreter path. -/
def winVenvPath (c : Ctx) : Str :=
  joinP c (joinP c (joinP c (joinP c c.cwd (str "scripts")) (str "venv")) (str "Scripts"))
    (str "python.exe")

/-- POSIX virtual-environment interpreter path. -/
def posixVenvPath (c : Ctx) : Str :=
  joinP c (joinP c (joinP c (joinP c c.cwd (str "scripts")) (str "venv")) (str "bin"))
    (str "python")

/-- Platform-default interpreter command. -/
def defaultPy (c : Ctx) : Str := if c.isWin then str "py" else str "python3"

/-- Worker selection of the virtual-showcase route: Windows venv, POSIX venv,
`PYTHON_PATH` override, platform default. -/
def getPythonExecutableShowcase (c : Ctx) : Str :=
  if c.fs (winVenvPath c) then winVenvPath c
  else if c.fs (posixVenvPath c) then posixVenvPath c
  else jsOrStr c.pythonPathEnv (defaultPy c)

/-- Worker selection of the runway route (textually identical to the
virtual-showcase variant in the source). -/
def getPythonExecutableRunway (c : Ctx) : Str :=
  getPythonExecutableShowcase c

/-- Worker selection of the apply-change route: Windows venv, POSIX venv,
platform default — it never consults `PYTHON_PATH`. -/
def getPythonExecutableApplyChange (c : Ctx) : Str :=
  if c.fs (winVenvPath c) then winVenvPath c
  else if c.fs (posixVenvPath c) then posixVenvPath c
  else defaultPy c

/-- Worker selection of the flatlay route: `PYTHON_PATH` override or platform
default — it never checks the virtual-environment paths. -/
def getPythonExecutableFlatlay (c : Ctx) : Str :=
  jsOrStr c.pythonPathEnv (defaultPy c)

/-! ## Shared handler pieces -/

/-- Effects of `ensureTempDir`: stat the temp directory, create it if absent. -/
def ensureTempDirEffects (c : Ctx) : List Effect :=
  let tmp := joinP c c.cwd (str "temp")
  if c.fs tmp then [.statCheck tmp] else [.statCheck tmp, .mkdirTemp]

/-- Absolute reference URL built by the showcase and runway routes when the
request carries a `reference`: keep it if `new URL` accepts it, otherwise
rebuild it from the forwarded-protocol headers and the host header. -/
def buildReferenceUrl (c : Ctx) (reference : Str) : Str :=
  match c.parseUrl reference with
  | some s => s
  | none =>
    let refererProto :=
      match c.headers (str "referer") with
      | some r => if r.isEmpty then str "http" else c.urlProtocol r
      | none => str "http"
    let proto :=
      jsOrStr (c.headers (str "x-forwarded-proto"))
        (jsOrStr (c.headers (str "x-forwarded-protocol")) refererProto)
    let host := jsOrStr (c.headers (str "host")) (str "localhost:3000")
    let refPath := if startsWithList (str "/") reference then reference else '/' :: reference
    proto ++ str "://" ++ host ++ refPath

/-- Reference URL actually used: built only when the body field is truthy. -/
def refUrlOf (c : Ctx) (b : JobBody) : Option Str :=
  if jsTruthy b.reference then some (buildReferenceUrl c (b.reference.getD [])) else none

/-- Optional `--model-attrs <json>` argument pair. -/
def modelAttrsArgs (c : Ctx) (b : JobBody) : List Str :=
  match b.modelConfig with
  | some l => if l.isEmpty then [] else [str "--model-attrs", c.jsonOfPairs l]
  | none => []

/-- Optional `--reference <url>` argument pair. -/
def referenceArgs (refUrl : Option Str) : List Str :=
  match refUrl with
  | some u => [str "--reference", u]
  | none => []

/-- Validation-failure response of the showcase and runway routes. -/
def missingDesignResp : ApiResponse :=
  { status := 400, success := false, error := some (str "missing design or design.design_id") }

/-- Error message `Script failed (code ${code})`. -/
def scriptFailedMsg (code : Option Int) : Str :=
  str "Script failed (code " ++ showExitCode code ++ str ")"

/-! ## Close-phase logic of the four routes (`proc.on("close", ...)`) -/

/-- Close handler of the virtual-showcase route. -/
def showcaseOnClose (c : Ctx) (d : Design) (w : WorkerOutcome) : ApiResponse × List Effect :=
  let combined := w.stdout ++ str "\n" ++ w.stderr
  if w.exitCode == some 0 then
    match showcaseMatch combined with
    | some cap =>
      ({ success := true, imageUrl := some (normalizeForBrowser (jsTrim cap)),
         message := some (str "Virtual showcase generated successfully") }, [])
    | none =>
      let fallback := joinP c (str "output") (designIdStr d ++ str "_showcase.png")
      let fallbackAbs := joinP c c.cwd fallback
      if c.fs fallbackAbs then
        ({ success := true, imageUrl := some (normalizeForBrowser fallback),
           message := some (str "Virtual showcase generated (fallback)") },
         [.statCheck fallbackAbs])
      else
        ({ success := true,
           message := some (str "Virtual showcase script finished but no image parsed"),
           raw_stdout := some w.stdout, raw_stderr := some w.stderr },
         [.statCheck fallbackAbs])
  else
    ({ status := 500, success := false, error := some (scriptFailedMsg w.exitCode),
       raw_stdout := some w.stdout, raw_stderr := some w.stderr }, [])

/-- Close handler of the runway route. -/
def runwayOnClose (c : Ctx) (d : Design) (w : WorkerOutcome) : ApiResponse × List Effect :=
  let combined := w.stdout ++ str "\n" ++ w.stderr
  if w.exitCode == some 0 then
    match runwayMatch combined with
    | some cap =>
      ({ success := true, videoUrl := some (normalizeForBrowser (jsTrim cap)),
         duration := some (str "6s"),
         message := some (str "Runway video generated successfully") }, [])
    | none =>
      let fallback := joinP c (str "output") (designIdStr d ++ str "_runway.mp4")
      let fallbackAbs := joinP c c.cwd fallback
      if c.fs fallbackAbs then
        ({ success := true, videoUrl := some (normalizeForBrowser fallback),
           duration := some (str "6s"),
           message := some (str "Runway generated (fallback)") },
         [.statCheck fallbackAbs])
      else
        ({ success := true,
           message := some (str "Runway script finished but no mp4 path found"),
           raw_stdout := some w.stdout, raw_stderr := some w.stderr },
         [.statCheck fallbackAbs])
  else
    ({ status := 500, success := false, error := some (scriptFailedMsg w.exitCode),
       raw_stdout := some w.stdout, raw_stderr := some w.stderr }, [])

/-- Close handler of the flatlay route. -/
def flatlayOnClose (w : WorkerOutcome) : ApiResponse × List Effect :=
  let combined := w.stdout ++ str "\n" ++ w.stderr
  let m := flatlayMatch combined
  if w.exitCode == some 0 then
    match m with
    | some cap =>
      ({ success := true, imageUrl := some (normalizeForBrowser (jsTrim cap)),
         message := some (str "Flatlay render generated successfully") }, [])
    | none =>
      ({ status := 500, success := false, error := some (str "Could not parse script output"),
         raw_stdout := some w.stdout, raw_stderr := some w.stderr }, [])
  else
    ({ status := 500, success := false, error := some (scriptFailedMsg w.exitCode),
       raw_stdout := some w.stdout, raw_stderr := some w.stderr }, [])

/-- Strip one leading and one trailing quote (`.replace(/^["']|["']$/g, "")`). -/
def stripEdgeQuotes (s : Str) : Str :=
  let isQ := fun c => c == '"' || c == Char.ofNat 39
  let s1 := match s with
    | c :: rest => if isQ c then rest else c :: rest
    | [] => []
  match s1.reverse with
  | c :: rest => if isQ c then rest.reverse else s1
  | [] => s1

/-- Scan of the candidate-path list for the first existing file, together with
the stat checks performed along the way. -/
def findExisting (fs : Str → Bool) : List Str → Option Str × List Effect
  | [] => (none, [])
  | p :: ps =>
    if fs p then (some p, [.statCheck p])
    else
      let r := findExisting fs ps
      (r.1, .statCheck p :: r.2)

/-- Close handler of the apply-change route.  Note the truncation of the raw
output (`stdout.slice(0, 2000)`, `stderr.slice(0, 8000)`) in every error
response. -/
def applyChangeOnClose (c : Ctx) (w : WorkerOutcome) : ApiResponse × List Effect :=
  if w.exitCode != some 0 then
    ({ status := 500, success := false,
       error := some (str "Python script exited with code " ++ showExitCode w.exitCode),
       raw_stdout := some (w.stdout.take 2000), raw_stderr := some (w.stderr.take 8000) }, [])
  else
    match wroteMatch w.stdout with
    | some cap =>
      let modifiedPath := stripEdgeQuotes (jsTrim cap)
      let candidatePaths :=
        (if c.isAbsolutePath modifiedPath then [modifiedPath] else []) ++
        [joinP c c.cwd modifiedPath,
         joinP c c.cwd (joinP c (str "scripts") modifiedPath),
         joinP c c.cwd (joinP c (str "temp") modifiedPath),
         joinP c c.cwd (joinP c (str "output") modifiedPath),
         joinP c c.cwd (replaceBackslashes modifiedPath)]
      let found := findExisting c.fs candidatePaths
      match found.1 with
      | none =>
        ({ status := 500, success := false,
           error := some (str "Python reported Wrote: path but file not found"),
           reportedPath := some modifiedPath, tried := some (candidatePaths.take 10),
           raw_stdout := some (w.stdout.take 2000),
           raw_stderr := some (w.stderr.take 8000) }, found.2)
      | some finalPath =>
        match c.parseJson (c.readFile finalPath) with
        | some js =>
          ({ success := true, design := some js,
             message := some (str "Design updated successfully") },
           found.2 ++ [.readFileE finalPath])
        | none =>
          ({ status := 500, success := false,
             error := some (str "Failed to read/parse updated design file"),
             finalPath := some finalPath,
             raw_stdout := some (w.stdout.take 2000),
             raw_stderr := some (w.stderr.take 8000) },
           found.2 ++ [.readFileE finalPath])
    | none =>
      match c.parseJson (jsTrim w.stdout) with
      | some js =>
        ({ success := true, design := some js,
           message := some (str "Design updated from stdout") }, [])
      | none =>
        ({ status := 500, success := false,
           error := some (str "Could not find written file path and stdout was not parseable JSON"),
           raw_stdout := some (w.stdout.take 2000),
           raw_stderr := some (w.stderr.take 8000) }, [])

/-! ## Full route handlers (validate, stage, spawn, close) -/

/-- Virtual-showcase route `POST` handler. -/
def showcaseHandler (c : Ctx) (b : JobBody) (w : WorkerOutcome) : ApiResponse × List Effect :=
  match b.design with
  | none => (missingDesignResp, [])
  | some d =>
    if jsTruthy d.design_id then
      let designPath := joinP c (joinP c c.cwd (str "temp")) (designIdStr d ++ str ".design.json")
      let refUrl := refUrlOf c b
      let py := getPythonExecutableShowcase c
      let args :=
        [joinP c (str "scripts") (str "agent3_virtual_showcase_demo.py"),
         str "--design", designPath, str "--out-dir", str "output"] ++
        modelAttrsArgs c b ++ referenceArgs refUrl
      let close := showcaseOnClose c d w
      (close.1,
       ensureTempDirEffects c ++ [.writeFileE designPath (c.stringifyDesign d)] ++
       [.spawn py args] ++ close.2)
    else (missingDesignResp, [])

/-- Runway route `POST` handler. -/
def runwayHandler (c : Ctx) (b : JobBody) (w : WorkerOutcome) : ApiResponse × List Effect :=
  match b.design with
  | none => (missingDesignResp, [])
  | some d =>
    if jsTruthy d.design_id then
      let designPath := joinP c (joinP c c.cwd (str "temp")) (designIdStr d ++ str ".design.json")
      let refUrl := refUrlOf c b
      let py := getPythonExecutableRunway c
      let args :=
        [joinP c (str "scripts") (str "agent3_runway_demo.py"),
         str "--design", designPath, str "--out-dir", str "output"] ++
        modelAttrsArgs c b ++ referenceArgs refUrl
      let close := runwayOnClose c d w
      (close.1,
       ensureTempDirEffects c ++ [.writeFileE designPath (c.stringifyDesign d)] ++
       [.spawn py args] ++ close.2)
    else (missingDesignResp, [])

/-- Flatlay route `POST` handler: its validation requires only `design`,
never `design.design_id`. -/
def flatlayHandler (c : Ctx) (b : JobBody) (w : WorkerOutcome) : ApiResponse × List Effect :=
  match b.design with
  | none =>
    ({ status := 400, success := false, error := some (str "missing design") }, [])
  | some d =>
    let designPath :=
      joinP c (joinP c c.cwd (str "temp")) (str "design_" ++ natStr c.now ++ str ".json")
    let py := getPythonExecutableFlatlay c
    let script := joinP c (joinP c c.cwd (str "scripts")) (str "render_utils.py")
    let args := [script, str "--input", designPath, str "--variant", str "flatlay"]
    let close := flatlayOnClose w
    (close.1,
     ensureTempDirEffects c ++ [.writeFileE designPath (c.stringifyDesign d)] ++
     [.spawn py args] ++ close.2)

/-- Apply-change route `POST` handler: it requires `design` and `textChange`. -/
def applyChangeHandler (c : Ctx) (b : JobBody) (w : WorkerOutcome) : ApiResponse × List Effect :=
  match b.design with
  | none =>
    ({ status := 400, success := false, error := some (str "Missing design or textChange") }, [])
  | some d =>
    if jsTruthy b.textChange then
      let tempDir := joinP c c.cwd (str "temp")
      let designPath := joinP c tempDir (str "design_" ++ natStr c.now ++ str ".json")
      let changePath := joinP c tempDir (str "change_" ++ natStr c.now ++ str ".txt")
      let py := getPythonExecutableApplyChange c
      let script := joinP c (joinP c c.cwd (str "scripts")) (str "apply_text_change.py")
      let close := applyChangeOnClose c w
      (close.1,
       [.mkdirTemp, .writeFileE designPath (c.stringifyDesign d),
        .writeFileE changePath (b.textChange.getD []),
        .spawn py [script, designPath, changePath]] ++ close.2)
    else
      ({ status := 400, success := false, error := some (str "Missing design or textChange") }, [])

/-! ## Secure Asset Resolver (`GET /api/assets`) -/

/-- Allow-list of top-level directories the resolver may serve from. -/
def ALLOWED_DIRS : List Str := [str "renders", str "output", str "public"]

/-- Normalization the resolver applies to the decoded `path` parameter:
backslashes become forward slashes, leading slashes are stripped. -/
def assetNormalize (rawPath : Str) : Str :=
  stripLeadingSlashes (replaceBackslashes rawPath)

/-- Environment of the asset resolver: filesystem and file contents oracles,
the platform's path canonicalization (`resolve(join(cwd, ...))`), the resolved
project root, the path separator and the MIME table. -/
structure AssetSys where
  fs : Str → Bool := noFiles
  readFile : Str → Str := fun _ => []
  resolveJoin : Str → Str := id
  root : Str := []
  sep : Char := '/'
  mime : Str → Option Str := fun _ => none

/-- Result of the asset resolver: either streamed bytes with a content type,
or a JSON error with an HTTP status (the 404 echoes the requested path). -/
inductive AssetResult where
  | ok (data : Str) (contentType : Str) : AssetResult
  | errJson (status : Nat) (msg : Str) (pathEcho : Option Str) : AssetResult
deriving DecidableEq, Repr

/-- Model of `GET /api/assets` given the already-extracted `path` query
parameter (`null` when absent), with the stat and read effects performed. -/
def assetGet (sys : AssetSys) (rawPath : Option Str) : AssetResult × List Effect :=
  match rawPath with
  | none => (.errJson 400 (str "Missing path param") none, [])
  | some rp =>
    let requested := assetNormalize rp
    if containsSub (str "..") requested then
      (.errJson 400 (str "Invalid path") none, [])
    else
      let firstSegment := (jsSplit '/' requested).headD []
      if ALLOWED_DIRS.contains firstSegment then
        let a := sys.resolveJoin requested
        if startsWithList (sys.root ++ [sys.sep]) a || a == sys.root then
          if sys.fs a then
            (.ok (sys.readFile a)
              (match sys.mime a with
               | some t => t
               | none => str "application/octet-stream"),
             [.statCheck a, .readFileE a])
          else (.errJson 404 (str "File not found") (some requested), [.statCheck a])
        else (.errJson 400 (str "Invalid resolved path") none, [])
      else (.errJson 403 (str "Folder not allowed") none, [])

/-! ## Front-end model-config normalization (`page.tsx`) -/

/-- Front-end model configuration as the form state provides it (both the
camel-case and the snake-case spellings occur in the source lookups). -/
structure ModelCfg where
  gender : Option Str := none
  ageRange : Option Str := none
  age_range : Option Str := none
  bodyType : Option Str := none
  body_type : Option Str := none
  skinTone : Option Str := none
  skin_tone : Option Str := none
  pose : Option Str := none
  framing : Option Str := none

/-- Backend schema the configuration is normalized to.  A `none` field models
a field that is `undefined` (or absent, for the `{}` early return). -/
structure BackendCfg where
  gender : Option Str := none
  age_range : Option Str := none
  body_type : Option Str := none
  skin_tone : Option Str := none
  pose : Option Str := none
  framing : Option Str := none
deriving DecidableEq, Repr

/-- Model of `normalizeModelConfigForBackend` from `page.tsx`: a falsy input
yields the empty object; otherwise five of the six fields fall back to
defaults while `gender` is passed through with no default. -/
def normalizeModelConfigForBackend (m : Option ModelCfg) : BackendCfg :=
  match m with
  | none => {}
  | some cfg =>
    { gender := jsOrOpt cfg.gender cfg.gender,
      age_range := jsOrOptD (jsOrOpt cfg.ageRange cfg.age_range) (str "25-32"),
      body_type := jsOrOptD (jsOrOpt cfg.bodyType cfg.body_type) (str "slim"),
      skin_tone := jsOrOptD (jsOrOpt cfg.skinTone cfg.skin_tone) (str "medium"),
      pose := jsOrOptD cfg.pose (str "standing"),
      framing := jsOrOptD cfg.framing (str "full-body, studio frame, no close-ups") }

/-! ## Concrete environments used by the witnesses and counterexamples -/

/-- Context with no virtual-environment files and an explicit `PYTHON_PATH`
override, on a POSIX platform. -/
def pyCtxEnvOnly : Ctx :=
  { fs := noFiles, pythonPathEnv := some (str "/custom/python"), isWin := false,
    cwd := str "/app" }

/-- Windows context where the virtual-environment interpreter exists on disk
and no override is set. -/
def pyCtxVenvWin : Ctx :=
  { fs := allFiles, pythonPathEnv := none, isWin := true, cwd := str "C:\\app" }

/-! ## Supporting lemmas -/

theorem startsWithList_self_append (p rest : Str) : startsWithList p (p ++ rest) = true := by
  induction p with
  | nil => rfl
  | cons c cs ih => simp [startsWithList, ih]

theorem hexVal_hexUpper : ∀ x, x < 16 → hexVal (hexUpper x) = some x := by decide

theorem utf8EncodeChar_lt_256 (n : Nat) (hn : n < 0x110000) :
    ∀ b ∈ utf8EncodeChar n, b < 256 := by
  intro b hb
  unfold utf8EncodeChar at hb
  split at hb
  · simp at hb; omega
  · split at hb
    · simp at hb; rcases hb with h | h <;> omega
    · split at hb
      · simp at hb; rcases hb with h | h | h <;> omega
      · simp at hb; rcases hb with h | h | h | h <;> omega

theorem char_valid_nat (c : Char) :
    c.toNat < 0xd800 ∨ (0xe000 ≤ c.toNat ∧ c.toNat < 0x110000) := c.valid

theorem char_toNat_lt (c : Char) : c.toNat < 0x110000 := by
  rcases char_valid_nat c with h | h
  · omega
  · exact h.2

theorem pctDecodeBytes_cons_other (c : Char) (rest : Str)
    (h1 : (c == '%') = false) (h2 : (c == '+') = false) :
    pctDecodeBytes (c :: rest) =
      (pctDecodeBytes rest).map (fun r => utf8EncodeChar c.toNat ++ r) := by
  rw [pctDecodeBytes.eq_def]
  dsimp only
  rw [if_neg (by simp [h1]), if_neg (by simp [h2])]

theorem pctDecodeBytes_flatMapEscapes (bs : List Nat) (hb : ∀ b ∈ bs, b < 256) (tail : Str) :
    pctDecodeBytes (bs.flatMap pctEncodeByte ++ tail) = (pctDecodeBytes tail).map (bs ++ ·) := by
  induction bs with
  | nil =>
    simp only [List.flatMap_nil, List.nil_append]
    cases pctDecodeBytes tail <;> simp
  | cons b bs ih =>
    have hblt : b < 256 := hb b (by simp)
    have hrest : ∀ x ∈ bs, x < 256 := fun x hx => hb x (by simp [hx])
    simp only [List.flatMap_cons, List.append_assoc, pctEncodeByte, List.cons_append,
      List.nil_append]
    rw [pctDecodeBytes.eq_2]
    simp only [show (('%' : Char) == '%') = true from rfl, if_true]
    rw [hexVal_hexUpper (b / 16) (by omega), hexVal_hexUpper (b % 16) (by omega)]
    rw [ih hrest]
    have hbeq : 16 * (b / 16) + b % 16 = b := by omega
    cases pctDecodeBytes tail <;> simp [hbeq]

theorem isUnreservedURI_not_special (c : Char) (h : isUnreservedURI c = true) :
    (c == '%') = false ∧ (c == '+') = false := by
  refine ⟨?_, ?_⟩ <;>
    · rw [beq_eq_false_iff_ne]
      rintro rfl
      revert h
      decide

theorem encodeURIComponent_cons (c : Char) (cs : Str) :
    encodeURIComponent (c :: cs) =
      (if isUnreservedURI c then [c] else (utf8EncodeChar c.toNat).flatMap pctEncodeByte)
        ++ encodeURIComponent cs := by
  simp [encodeURIComponent]

theorem pctDecodeBytes_encode (s : Str) :
    pctDecodeBytes (encodeURIComponent s) = some (utf8EncodeList s) := by
  induction s with
  | nil => rfl
  | cons c cs ih =>
    rw [encodeURIComponent_cons]
    by_cases hc : isUnreservedURI c = true
    · obtain ⟨h1, h2⟩ := isUnreservedURI_not_special c hc
      rw [if_pos hc, List.singleton_append, pctDecodeBytes_cons_other c _ h1 h2, ih]
      simp [utf8EncodeList]
    · rw [if_neg hc]
      rw [pctDecodeBytes_flatMapEscapes (utf8EncodeChar c.toNat)
        (utf8EncodeChar_lt_256 c.toNat (char_toNat_lt c)) (encodeURIComponent cs), ih]
      simp [utf8EncodeList]

theorem utf8DecodeOne_encodeChar (c : Char) (bs : List Nat) :
    utf8DecodeOne (utf8EncodeChar c.toNat ++ bs) = some (c, bs) := by
  have hval := char_valid_nat c
  have hlt := char_toNat_lt c
  set n := c.toNat with hn
  by_cases h1 : n < 0x80
  · rw [show utf8EncodeChar n = [n] from by rw [utf8EncodeChar, if_pos h1]]
    rw [List.singleton_append, utf8DecodeOne.eq_def]
    dsimp only
    rw [if_pos h1, hn, Char.ofNat_toNat]
  · by_cases h2 : n < 0x800
    · rw [show utf8EncodeChar n = [0xC0 + n / 64, 0x80 + n % 64] from by
        rw [utf8EncodeChar, if_neg h1, if_pos h2]]
      simp only [List.cons_append, List.nil_append]
      rw [utf8DecodeOne.eq_def]
      dsimp only
      rw [if_neg (by omega), if_neg (by omega), if_pos (by omega), if_pos (by omega)]
      have harith : (0xC0 + n / 64 - 0xC0) * 64 + (0x80 + n % 64 - 0x80) = n := by omega
      rw [harith, hn, Char.ofNat_toNat]
    · by_cases h3 : n < 0x10000
      · rw [show utf8EncodeChar n =
            [0xE0 + n / 4096, 0x80 + (n / 64) % 64, 0x80 + n % 64] from by
          rw [utf8EncodeChar, if_neg h1, if_neg h2, if_pos h3]]
        simp only [List.cons_append, List.nil_append]
        rw [utf8DecodeOne.eq_def]
        dsimp only
        rw [if_neg (by omega), if_neg (by omega), if_neg (by omega), if_pos (by omega)]
        rw [if_pos ?cond]
        case cond =>
          refine ⟨by omega, by omega, ?_, ?_⟩
          · rintro ⟨he, hb⟩
            omega
          · rintro ⟨he, hb⟩
            rcases hval with hv | hv <;> omega
        have harith : (0xE0 + n / 4096 - 0xE0) * 4096 +
            (0x80 + (n / 64) % 64 - 0x80) * 64 + (0x80 + n % 64 - 0x80) = n := by omega
        rw [harith, hn, Char.ofNat_toNat]
      · rw [show utf8EncodeChar n =
            [0xF0 + n / 262144, 0x80 + (n / 4096) % 64, 0x80 + (n / 64) % 64, 0x80 + n % 64] from by
          rw [utf8EncodeChar, if_neg h1, if_neg h2, if_neg h3]]
        simp only [List.cons_append, List.nil_append]
        rw [utf8DecodeOne.eq_def]
        dsimp only
        rw [if_neg (by omega), if_neg (by omega), if_neg (by omega), if_neg (by omega),
          if_pos (by omega)]
        rw [if_pos ?cond4]
        case cond4 =>
          refine ⟨by omega, by omega, by omega, ?_, ?_⟩
          · rintro ⟨he, hb⟩
            omega
          · rintro ⟨he, hb⟩
            omega
        have harith : (0xF0 + n / 262144 - 0xF0) * 262144 +
            (0x80 + (n / 4096) % 64 - 0x80) * 4096 +
            (0x80 + (n / 64) % 64 - 0x80) * 64 + (0x80 + n % 64 - 0x80) = n := by omega
        rw [harith, hn, Char.ofNat_toNat]

theorem utf8EncodeChar_ne_nil (n : Nat) : utf8EncodeChar n ≠ [] := by
  unfold utf8EncodeChar
  split
  · simp
  · split
    · simp
    · split <;> simp

theorem utf8DecodeList_step (bs : List Nat) (c : Char) (rest : List Nat)
    (h : utf8DecodeOne bs = some (c, rest)) :
    utf8DecodeList bs = (utf8DecodeList rest).map (fun r => c :: r) := by
  have hne : bs.isEmpty = false := by
    cases bs
    · exact absurd h (by simp [utf8DecodeOne])
    · rfl
  rw [utf8DecodeList, if_neg (by simp [hne])]
  split
  · next c' rest' heq =>
      rw [h] at heq
      cases heq
      rfl
  · next heq =>
      rw [h] at heq
      cases heq

theorem utf8DecodeList_encodeList (s : Str) :
    utf8DecodeList (utf8EncodeList s) = some s := by
  induction s with
  | nil =>
    rw [utf8EncodeList, List.flatMap_nil, utf8DecodeList]
    rfl
  | cons c cs ih =>
    show utf8DecodeList (utf8EncodeChar c.toNat ++ utf8EncodeList cs) = some (c :: cs)
    rw [utf8DecodeList_step _ c (utf8EncodeList cs) (utf8DecodeOne_encodeChar c _), ih]
    rfl

theorem formDecode_encode (s : Str) : formDecode (encodeURIComponent s) = some s := by
  rw [formDecode, pctDecodeBytes_encode]
  exact utf8DecodeList_encodeList s

theorem jsSplit_ne_nil (sep : Char) (cs : Str) : jsSplit sep cs ≠ [] := by
  induction cs with
  | nil => simp [jsSplit]
  | cons c cs ih =>
    rw [jsSplit]
    split
    · simp
    · split
      · simp
      · simp

theorem jsSplit_headD_append (sep : Char) (cs : Str) :
    ∃ rest, cs = (jsSplit sep cs).headD [] ++ rest := by
  induction cs with
  | nil => exact ⟨[], rfl⟩
  | cons c cs ih =>
    rw [jsSplit]
    split
    · exact ⟨c :: cs, rfl⟩
    · obtain ⟨rest, hrest⟩ := ih
      match hr : jsSplit sep cs with
      | [] => exact absurd hr (jsSplit_ne_nil sep cs)
      | g :: gs =>
        refine ⟨rest, ?_⟩
        rw [hr] at hrest
        simp only [List.headD_cons] at hrest
        simp [hrest]

theorem mem_jsSplit_infix (sep : Char) (g : Str) :
    ∀ cs, g ∈ jsSplit sep cs → ∃ pre post, cs = pre ++ g ++ post := by
  intro cs
  induction cs with
  | nil =>
    intro h
    simp [jsSplit] at h
    exact ⟨[], [], by simp [h]⟩
  | cons c cs ih =>
    rw [jsSplit]
    split
    · intro h
      rcases List.mem_cons.mp h with h | h
      · exact ⟨[], c :: cs, by simp [h]⟩
      · obtain ⟨pre, post, hsp⟩ := ih h
        exact ⟨c :: pre, post, by simp [hsp]⟩
    · match hr : jsSplit sep cs with
      | [] => exact absurd hr (jsSplit_ne_nil sep cs)
      | g0 :: gs =>
        intro h
        rcases List.mem_cons.mp h with h | h
        · obtain ⟨rest, hrest⟩ := jsSplit_headD_append sep cs
          rw [hr] at hrest
          simp only [List.headD_cons] at hrest
          exact ⟨[], rest, by simp [h, hrest]⟩
        · have hg : g ∈ jsSplit sep cs := by rw [hr]; exact List.mem_cons_of_mem g0 h
          obtain ⟨pre, post, hsp⟩ := ih hg
          exact ⟨c :: pre, post, by simp [hsp]⟩

theorem containsSub_of_startsWith : ∀ (pat s : Str),
    startsWithList pat s = true → containsSub pat s = true
  | pat, [], h => by
    cases pat
    · rfl
    · simp [startsWithList] at h
  | pat, c :: cs, h => by
    rw [containsSub, h]
    simp

theorem containsSub_of_parts (pat pre post : Str) :
    containsSub pat (pre ++ pat ++ post) = true := by
  induction pre with
  | nil =>
    simp only [List.nil_append]
    exact containsSub_of_startsWith pat (pat ++ post) (startsWithList_self_append pat post)
  | cons a pre ih =>
    show containsSub pat (a :: (pre ++ pat ++ post)) = true
    rw [containsSub, ih]
    simp

theorem containsSub_of_mem_jsSplit (pat : Str) (cs : Str)
    (h : pat ∈ jsSplit '/' cs) : containsSub pat cs = true := by
  obtain ⟨pre, post, hsp⟩ := mem_jsSplit_infix '/' pat cs h
  rw [hsp]
  exact containsSub_of_parts pat pre post

theorem replaceBackslashes_idem (s : Str) :
    replaceBackslashes (replaceBackslashes s) = replaceBackslashes s := by
  simp only [replaceBackslashes, List.map_map]
  apply List.map_congr_left
  intro c _
  by_cases hc : c = '\\'
  · subst hc; rfl
  · have : (c == '\\') = false := by simpa using hc
    simp [Function.comp, this]

theorem stripLeadingSlashes_of_ne : ∀ (s : Str), s.head? ≠ some '/' → stripLeadingSlashes s = s
  | [], _ => rfl
  | c :: rest, h => by
    rw [stripLeadingSlashes.eq_def]
    split
    · rename_i rest2 heq
      cases heq
      simp at h
    · rfl

theorem stripDriveLetter_of_not : ∀ (s : Str), hasDriveLetter s = false → stripDriveLetter s = s
  | [], _ => rfl
  | [a], _ => rfl
  | a :: b :: rest, h => by
    have hcond : (isAsciiLetter a && (b == ':')) = false := h
    simp [stripDriveLetter, hcond]

theorem hasDriveLetter_replaceBackslashes (p : Str) (h : hasDriveLetter p = false) :
    hasDriveLetter (replaceBackslashes p) = false := by
  match p with
  | [] => rfl
  | [a] => rfl
  | a :: b :: rest =>
    have hcond : (isAsciiLetter a && (b == ':')) = false := h
    simp only [replaceBackslashes, List.map_cons, hasDriveLetter]
    by_cases ha : a = '\\'
    · subst ha
      simp [isAsciiLetter]
    · have ha' : (a == '\\') = false := by simpa using ha
      simp only [ha', if_false]
      by_cases hb : b = '\\'
      · subst hb
        simp
      · have hb' : (b == '\\') = false := by simpa using hb
        simp only [hb', if_false]
        exact hcond

theorem replaceBackslashes_head_ne_slash (p : Str) (hrel : isRelativePath p = true) :
    (replaceBackslashes p).head? ≠ some '/' := by
  match p with
  | [] => simp [replaceBackslashes]
  | c :: rest =>
    rw [isRelativePath.eq_def] at hrel
    simp only [Bool.and_eq_true, Bool.not_eq_true'] at hrel
    obtain ⟨⟨h1, h2⟩, -⟩ := hrel
    simp only [replaceBackslashes, List.map_cons, List.head?_cons, h2, if_false, ne_eq,
      Option.some.injEq]
    exact beq_eq_false_iff_ne.mp h1

theorem stripDL_replaceBackslashes (p : Str) (hrel : isRelativePath p = true) :
    stripDriveLetter (replaceBackslashes p) = replaceBackslashes p := by
  rw [isRelativePath.eq_def, Bool.and_eq_true] at hrel
  obtain ⟨-, hdrive⟩ := hrel
  rw [Bool.not_eq_true'] at hdrive
  exact stripDriveLetter_of_not _ (hasDriveLetter_replaceBackslashes p hdrive)

theorem startsWithList_eq_take : ∀ (pat s : Str),
    startsWithList pat s = true → s.take pat.length = pat
  | [], s, _ => by simp
  | p :: ps, [], h => by simp [startsWithList] at h
  | p :: ps, c :: cs, h => by
    rw [startsWithList, Bool.and_eq_true] at h
    obtain ⟨h1, h2⟩ := h
    have ih := startsWithList_eq_take ps cs h2
    simp only [List.length_cons, List.take_succ_cons, ih]
    rw [(beq_iff_eq.mp h1)]

/-! ## C1: traversal segments are rejected before any filesystem access -/

/-- C1: for every asset request whose decoded `path`, after normalizing
backslashes and stripping leading slashes, contains a `..` segment anywhere,
`GET /api/assets` answers BadRequest (HTTP 400, `Invalid path`) and performs
no filesystem effect at all — in particular it never reads a file. -/
theorem c1_traversal_rejected (sys : AssetSys) (rp : Str)
    (h : str ".." ∈ jsSplit '/' (assetNormalize rp)) :
    assetGet sys (some rp) = (.errJson 400 (str "Invalid path") none, []) := by
  have hC : containsSub (str "..") (assetNormalize rp) = true :=
    containsSub_of_mem_jsSplit _ _ h
  simp [assetGet, hC]

/-- Witness for C1 at the concrete request `output/../secret`. -/
theorem c1_traversal_rejected_witness :
    str ".." ∈ jsSplit '/' (assetNormalize (str "output/../secret")) ∧
    assetGet {} (some (str "output/../secret")) = (.errJson 400 (str "Invalid path") none, []) :=
  ⟨by decide, c1_traversal_rejected {} _ (by decide)⟩

/-! ## C10: the allow-list excludes `temp` -/

/-- C10 (counterexample to the claim as stated): a request whose decoded path
has first segment `temp` but contains `..` is answered with BadRequest 400,
not Forbidden 403, so "every request with first segment `temp` yields
Forbidden" is false on the code. -/
theorem c10_counterexample :
    (jsSplit '/' (assetNormalize (str "temp/../x"))).headD [] = str "temp" ∧
    assetGet {} (some (str "temp/../x")) = (.errJson 400 (str "Invalid path") none, []) := by
  constructor
  · decide
  · decide

/-- C10 (amended): the allow-list is exactly `{renders, output, public}`; for
every request whose decoded path passes the traversal check and has first
segment `temp`, the resolver answers Forbidden (HTTP 403) with no filesystem
effect — file existence is never consulted. -/
theorem c10_amended (sys : AssetSys) (rp : Str)
    (h1 : (jsSplit '/' (assetNormalize rp)).headD [] = str "temp")
    (h2 : containsSub (str "..") (assetNormalize rp) = false) :
    assetGet sys (some rp) = (.errJson 403 (str "Folder not allowed") none, []) := by
  have h1a : (jsSplit '/' (assetNormalize rp)).head?.getD [] = str "temp" := by
    cases hsp : jsSplit '/' (assetNormalize rp) with
    | nil => exact absurd hsp (jsSplit_ne_nil _ _)
    | cons g gs =>
      rw [hsp] at h1
      simpa using h1
  simp [assetGet, h2, h1a, (by decide : ¬ (str "temp" ∈ ALLOWED_DIRS))]

/-- Witness for the amended C10 at the concrete request `temp/a.png`. -/
theorem c10_amended_witness :
    (jsSplit '/' (assetNormalize (str "temp/a.png"))).headD [] = str "temp" ∧
    containsSub (str "..") (assetNormalize (str "temp/a.png")) = false ∧
    assetGet {} (some (str "temp/a.png")) = (.errJson 403 (str "Folder not allowed") none, []) :=
  ⟨by decide, by decide, c10_amended {} _ (by decide) (by decide)⟩

/-! ## C6: normalize / decode round trip -/

/-- C6: for every relative path (no leading slash or backslash, no drive
letter) with no `..` segment, running `normalizeForBrowser` and then the
asset resolver's decode step recovers exactly the path with its slashes
normalized. -/
theorem c6_roundtrip (p : Str) (hrel : isRelativePath p = true)
    (hseg : str ".." ∉ jsSplit '/' (replaceBackslashes p)) :
    assetDecodeStep (normalizeForBrowser p) = some (replaceBackslashes p) := by
  have hhead := replaceBackslashes_head_ne_slash p hrel
  have hnb : normalizeForBrowser p =
      assetsBase ++ encodeURIComponent (replaceBackslashes p) := by
    simp only [normalizeForBrowser]
    rw [stripDL_replaceBackslashes p hrel, stripLeadingSlashes_of_ne _ hhead]
  rw [hnb, assetDecodeStep, if_pos (startsWithList_self_append assetsBase _)]
  rw [List.drop_left, formDecode_encode]
  simp only [Option.map_some']
  rw [replaceBackslashes_idem, stripLeadingSlashes_of_ne _ hhead]

/-- Witness for C6 at the concrete path `renders/a b.png`. -/
theorem c6_roundtrip_witness :
    isRelativePath (str "renders/a b.png") = true ∧
    str ".." ∉ jsSplit '/' (replaceBackslashes (str "renders/a b.png")) ∧
    assetDecodeStep (normalizeForBrowser (str "renders/a b.png")) =
      some (replaceBackslashes (str "renders/a b.png")) :=
  ⟨by decide, by decide, c6_roundtrip _ (by decide) (by decide)⟩

/-! ## C3: the normalizer has no URL passthrough -/

/-- C3 (counterexample to the claim as stated): an input matching `^https?://`
is not returned unchanged — `normalizeForBrowser` rewrites it into the asset
route like any other path. -/
theorem c3_counterexample :
    normalizeForBrowser (str "https://example.com/a.png") ≠ str "https://example.com/a.png" := by
  decide

/-- C3 (amended): `normalizeForBrowser` treats every input uniformly — even
one matching `^https?://` is backslash-normalized, percent-encoded and wrapped
in `/api/assets?path=`, never returned unchanged; the claimed behavior holds
only for the non-URL branch. -/
theorem c3_amended (p : Str) (h : startsHttp p = true) :
    normalizeForBrowser p ≠ p ∧
    normalizeForBrowser p = assetsBase ++ encodeURIComponent (replaceBackslashes p) := by
  have hshape : ∃ rest, p = 'h' :: 't' :: rest := by
    rw [startsHttp, Bool.or_eq_true] at h
    rcases h with h | h
    · have ht := startsWithList_eq_take _ _ h
      refine ⟨'t' :: 'p' :: ':' :: '/' :: '/' :: p.drop 7, ?_⟩
      conv_lhs => rw [← List.take_append_drop 7 p]
      rw [show (str "http://").length = 7 from rfl] at ht
      rw [ht]
      rfl
    · have ht := startsWithList_eq_take _ _ h
      refine ⟨'t' :: 'p' :: 's' :: ':' :: '/' :: '/' :: p.drop 8, ?_⟩
      conv_lhs => rw [← List.take_append_drop 8 p]
      rw [show (str "https://").length = 8 from rfl] at ht
      rw [ht]
      rfl
  obtain ⟨rest, hp⟩ := hshape
  have hq : replaceBackslashes p = 'h' :: 't' :: replaceBackslashes rest := by
    rw [hp]
    rfl
  have hnb : normalizeForBrowser p = assetsBase ++ encodeURIComponent (replaceBackslashes p) := by
    simp only [normalizeForBrowser]
    rw [hq]
    rw [show stripDriveLetter ('h' :: 't' :: replaceBackslashes rest) =
        'h' :: 't' :: replaceBackslashes rest from by
      rw [stripDriveLetter]
      rw [if_neg (by decide)]]
    have hne : ('h' :: 't' :: replaceBackslashes rest).head? ≠ some '/' := by
      intro hcon
      exact absurd (Option.some.inj hcon) (by decide)
    rw [stripLeadingSlashes_of_ne _ hne]
  refine ⟨?_, hnb⟩
  rw [hnb, hp]
  intro hcontra
  have hheads := congrArg List.head? hcontra
  rw [show assetsBase = '/' :: str "api/assets?path=" from rfl] at hheads
  simp at hheads

/-- Witness for the amended C3 at the concrete URL input. -/
theorem c3_amended_witness :
    startsHttp (str "https://example.com/a.png") = true ∧
    normalizeForBrowser (str "https://example.com/a.png") ≠ str "https://example.com/a.png" ∧
    normalizeForBrowser (str "https://example.com/a.png") =
      assetsBase ++ encodeURIComponent (replaceBackslashes (str "https://example.com/a.png")) :=
  ⟨by decide, (c3_amended _ (by decide)).1, (c3_amended _ (by decide)).2⟩

/-! ## C4: worker-selection order differs per route -/

/-- C4 (counterexample to the claim as stated): the selection order claimed
for every handler holds only for the showcase and runway routes — with no
venv present and `PYTHON_PATH` set, apply-change ignores the override and
returns the platform default; with the Windows venv present, flatlay ignores
it and returns the override-or-default. -/
theorem c4_counterexample :
    getPythonExecutableShowcase pyCtxEnvOnly = str "/custom/python" ∧
    getPythonExecutableApplyChange pyCtxEnvOnly = str "python3" ∧
    getPythonExecutableFlatlay pyCtxVenvWin = str "py" ∧
    getPythonExecutableShowcase pyCtxVenvWin = winVenvPath pyCtxVenvWin := by
  refine ⟨rfl, rfl, rfl, ?_⟩
  decide

/-- C4 (amended): showcase and runway check Windows venv, POSIX venv, the
`PYTHON_PATH` override, then the platform default, in that order; apply-change
checks the two venv paths and then the platform default, never the override;
flatlay checks only the override and then the platform default, never the
venv paths. -/
theorem c4_amended (c : Ctx) :
    (c.fs (winVenvPath c) = true →
      getPythonExecutableShowcase c = winVenvPath c ∧
      getPythonExecutableRunway c = winVenvPath c ∧
      getPythonExecutableApplyChange c = winVenvPath c) ∧
    (c.fs (winVenvPath c) = false → c.fs (posixVenvPath c) = true →
      getPythonExecutableShowcase c = posixVenvPath c ∧
      getPythonExecutableApplyChange c = posixVenvPath c) ∧
    (c.fs (winVenvPath c) = false → c.fs (posixVenvPath c) = false →
      getPythonExecutableShowcase c = jsOrStr c.pythonPathEnv (defaultPy c) ∧
      getPythonExecutableRunway c = jsOrStr c.pythonPathEnv (defaultPy c) ∧
      getPythonExecutableApplyChange c = defaultPy c) ∧
    getPythonExecutableFlatlay c = jsOrStr c.pythonPathEnv (defaultPy c) := by
  refine ⟨fun h1 => ?_, fun h1 h2 => ?_, fun h1 h2 => ?_, rfl⟩
  · exact ⟨by simp [getPythonExecutableShowcase, h1],
      by simp [getPythonExecutableRunway, getPythonExecutableShowcase, h1],
      by simp [getPythonExecutableApplyChange, h1]⟩
  · exact ⟨by simp [getPythonExecutableShowcase, h1, h2],
      by simp [getPythonExecutableApplyChange, h1, h2]⟩
  · exact ⟨by simp [getPythonExecutableShowcase, h1, h2],
      by simp [getPythonExecutableRunway, getPythonExecutableShowcase, h1, h2],
      by simp [getPythonExecutableApplyChange, h1, h2]⟩

/-- Witness for the amended C4 in the override-only environment. -/
theorem c4_amended_witness :
    pyCtxEnvOnly.fs (winVenvPath pyCtxEnvOnly) = false ∧
    pyCtxEnvOnly.fs (posixVenvPath pyCtxEnvOnly) = false ∧
    getPythonExecutableShowcase pyCtxEnvOnly =
      jsOrStr pyCtxEnvOnly.pythonPathEnv (defaultPy pyCtxEnvOnly) ∧
    getPythonExecutableApplyChange pyCtxEnvOnly = defaultPy pyCtxEnvOnly :=
  ⟨rfl, rfl, ((c4_amended pyCtxEnvOnly).2.2.1 rfl rfl).1,
    ((c4_amended pyCtxEnvOnly).2.2.1 rfl rfl).2.2⟩

/-! ## C5: request validation differs per route -/

/-- C5 (counterexample to the claim as stated): the flatlay route accepts a
body whose design lacks `design_id` — it stages files and spawns the worker
(four side effects) and answers with the worker outcome (HTTP 500 here), not
with a validation rejection. -/
theorem c5_counterexample :
    (flatlayHandler {} { design := some {} } { exitCode := some 1 }).1.status = 500 ∧
    (flatlayHandler {} { design := some {} } { exitCode := some 1 }).2.length = 4 := by
  constructor
  · decide
  · decide

/-- C5 (amended): virtual-showcase and runway reject a body lacking a truthy
`design.design_id` with HTTP 400 and no side effect; flatlay rejects only
when `design` itself is absent; apply-change rejects when `design` or
`textChange` is missing — each before any side effect. -/
theorem c5_amended (c : Ctx) (b : JobBody) (w : WorkerOutcome) :
    ((∀ d, b.design = some d → jsTruthy d.design_id = false) →
      showcaseHandler c b w = (missingDesignResp, []) ∧
      runwayHandler c b w = (missingDesignResp, [])) ∧
    (b.design = none →
      flatlayHandler c b w =
        ({ status := 400, success := false, error := some (str "missing design") }, [])) ∧
    ((b.design = none ∨ jsTruthy b.textChange = false) →
      applyChangeHandler c b w =
        ({ status := 400, success := false,
           error := some (str "Missing design or textChange") }, [])) := by
  refine ⟨fun h => ?_, fun h => ?_, fun h => ?_⟩
  · cases hd : b.design with
    | none => exact ⟨by simp [showcaseHandler, hd], by simp [runwayHandler, hd]⟩
    | some d =>
      have hid := h d hd
      exact ⟨by simp [showcaseHandler, hd, hid], by simp [runwayHandler, hd, hid]⟩
  · simp [flatlayHandler, h]
  · rcases h with h | h
    · simp [applyChangeHandler, h]
    · cases hd : b.design with
      | none => simp [applyChangeHandler, hd]
      | some d => simp [applyChangeHandler, hd, h]

/-- Witness for the amended C5 at concrete invalid bodies. -/
theorem c5_amended_witness :
    showcaseHandler {} { design := some { design_id := some [] } } {} =
      (missingDesignResp, []) ∧
    runwayHandler {} { design := some { design_id := some [] } } {} =
      (missingDesignResp, []) ∧
    flatlayHandler {} {} {} =
      ({ status := 400, success := false, error := some (str "missing design") }, []) ∧
    applyChangeHandler {} { design := some { design_id := some [] } } {} =
      ({ status := 400, success := false,
         error := some (str "Missing design or textChange") }, []) := by
  have h1 := c5_amended {} { design := some { design_id := some [] } } {}
  have h2 := c5_amended {} {} {}
  have hid : ∀ d, (some { design_id := some [] } : Option Design) = some d →
      jsTruthy d.design_id = false := by
    intro d hd
    cases hd
    rfl
  exact ⟨(h1.1 hid).1, (h1.1 hid).2, h2.2.1 rfl, h1.2.2 (Or.inr rfl)⟩

/-! ## C8: runway validation happens before any side effect -/

/-- C8: a runway request whose body is missing `design` or whose
`design.design_id` is not truthy is answered HTTP 400 with an empty effect
list — no temp file is written and no worker process is spawned. -/
theorem c8_runway_validation (c : Ctx) (b : JobBody) (w : WorkerOutcome)
    (h : ∀ d, b.design = some d → jsTruthy d.design_id = false) :
    runwayHandler c b w = (missingDesignResp, []) := by
  cases hd : b.design with
  | none => simp [runwayHandler, hd]
  | some d => simp [runwayHandler, hd, h d hd]

/-- Witness for C8 at the empty body. -/
theorem c8_runway_validation_witness :
    runwayHandler {} {} {} = (missingDesignResp, []) :=
  c8_runway_validation {} {} {} (fun _ hd => nomatch hd)

/-! ## C2: a missed artifact is not reported as failure everywhere -/

/-- C2 (counterexample to the claim as stated): with exit code 0, no `Saved`
marker in the captured output, and no fallback file on disk, the
virtual-showcase and runway close handlers still answer `success := true`
(HTTP 200 with a diagnostic message), contradicting the claimed
`success:false`. -/
theorem c2_counterexample :
    (showcaseOnClose {} {} { exitCode := some 0, stdout := [], stderr := [] }).1.success = true ∧
    (showcaseOnClose {} {} { exitCode := some 0, stdout := [], stderr := [] }).1.status = 200 ∧
    (runwayOnClose {} {} { exitCode := some 0, stdout := [], stderr := [] }).1.success = true := by
  refine ⟨?_, ?_, ?_⟩ <;> decide

/-- C2 (amended): with exit code 0, no recognizable marker and no fallback
file, only the flatlay handler reports failure (`success := false`, HTTP 500);
the virtual-showcase and runway handlers report `success := true` with a
diagnostic message and the raw captured output. -/
theorem c2_amended (c : Ctx) (d : Design) (w : WorkerOutcome)
    (h0 : w.exitCode = some 0)
    (hf : flatlayMatch (w.stdout ++ str "\n" ++ w.stderr) = none)
    (hs : showcaseMatch (w.stdout ++ str "\n" ++ w.stderr) = none)
    (hr : runwayMatch (w.stdout ++ str "\n" ++ w.stderr) = none)
    (hfs1 : c.fs (joinP c c.cwd
      (joinP c (str "output") (designIdStr d ++ str "_showcase.png"))) = false)
    (hfs2 : c.fs (joinP c c.cwd
      (joinP c (str "output") (designIdStr d ++ str "_runway.mp4"))) = false) :
    (flatlayOnClose w).1 =
      { status := 500, success := false, error := some (str "Could not parse script output"),
        raw_stdout := some w.stdout, raw_stderr := some w.stderr } ∧
    (showcaseOnClose c d w).1 =
      { success := true,
        message := some (str "Virtual showcase script finished but no image parsed"),
        raw_stdout := some w.stdout, raw_stderr := some w.stderr } ∧
    (runwayOnClose c d w).1 =
      { success := true,
        message := some (str "Runway script finished but no mp4 path found"),
        raw_stdout := some w.stdout, raw_stderr := some w.stderr } := by
  have hf2 : flatlayMatch (w.stdout ++ (str "\n" ++ w.stderr)) = none := by
    rw [← List.append_assoc]
    exact hf
  have hs2 : showcaseMatch (w.stdout ++ (str "\n" ++ w.stderr)) = none := by
    rw [← List.append_assoc]
    exact hs
  have hr2 : runwayMatch (w.stdout ++ (str "\n" ++ w.stderr)) = none := by
    rw [← List.append_assoc]
    exact hr
  refine ⟨?_, ?_, ?_⟩
  · simp [flatlayOnClose, h0, hf, hf2]
  · simp [showcaseOnClose, h0, hs, hs2, hfs1]
  · simp [runwayOnClose, h0, hr, hr2, hfs2]

/-- Witness for the amended C2 at a concrete unrecognizable output. -/
theorem c2_amended_witness :
    (flatlayOnClose { exitCode := some 0, stdout := str "done", stderr := [] }).1 =
      { status := 500, success := false, error := some (str "Could not parse script output"),
        raw_stdout := some (str "done"), raw_stderr := some [] } ∧
    (showcaseOnClose {} {} { exitCode := some 0, stdout := str "done", stderr := [] }).1 =
      { success := true,
        message := some (str "Virtual showcase script finished but no image parsed"),
        raw_stdout := some (str "done"), raw_stderr := some [] } ∧
    (runwayOnClose {} {} { exitCode := some 0, stdout := str "done", stderr := [] }).1 =
      { success := true,
        message := some (str "Runway script finished but no mp4 path found"),
        raw_stdout := some (str "done"), raw_stderr := some [] } :=
  c2_amended {} {} { exitCode := some 0, stdout := str "done", stderr := [] }
    rfl (by decide) (by decide) (by decide) rfl rfl

/-! ## C7: raw output on a non-zero exit is full in three routes, truncated in one -/

/-- C7 (counterexample to the claim as stated): on exit code 137 the
apply-change handler truncates the captured stdout to its first 2000
characters — a 2001-character stdout is not attached in full. -/
theorem c7_counterexample :
    (applyChangeOnClose {}
        { exitCode := some 137, stdout := List.replicate 2001 'a', stderr := [] }).1.raw_stdout
      = some (List.replicate 2000 'a') ∧
    (List.replicate 2000 'a' : Str) ≠ List.replicate 2001 'a' := by
  constructor
  · have hcond : ((some 137 : Option Int) != some 0) = true := by decide
    have hmin : min 2000 2001 = 2000 := by norm_num
    rw [applyChangeOnClose, if_pos hcond, List.take_replicate, hmin]
  · intro h
    have hl := congrArg List.length h
    rw [List.length_replicate, List.length_replicate] at hl
    omega

/-- C7 (amended): for every non-zero (or null) exit code, all four handlers
answer `success := false` with HTTP 500; flatlay, virtual-showcase and runway
attach the full captured stdout and stderr, while apply-change attaches
stdout truncated to 2000 characters and stderr truncated to 8000. -/
theorem c7_amended (c : Ctx) (d : Design) (w : WorkerOutcome) (h : w.exitCode ≠ some 0) :
    (flatlayOnClose w).1 =
      { status := 500, success := false, error := some (scriptFailedMsg w.exitCode),
        raw_stdout := some w.stdout, raw_stderr := some w.stderr } ∧
    (showcaseOnClose c d w).1 =
      { status := 500, success := false, error := some (scriptFailedMsg w.exitCode),
        raw_stdout := some w.stdout, raw_stderr := some w.stderr } ∧
    (runwayOnClose c d w).1 =
      { status := 500, success := false, error := some (scriptFailedMsg w.exitCode),
        raw_stdout := some w.stdout, raw_stderr := some w.stderr } ∧
    (applyChangeOnClose c w).1 =
      { status := 500, success := false,
        error := some (str "Python script exited with code " ++ showExitCode w.exitCode),
        raw_stdout := some (w.stdout.take 2000), raw_stderr := some (w.stderr.take 8000) } := by
  have hb : (w.exitCode == some 0) = false := beq_eq_false_iff_ne.mpr h
  refine ⟨?_, ?_, ?_, ?_⟩
  · simp [flatlayOnClose, hb]
  · simp [showcaseOnClose, hb]
  · simp [runwayOnClose, hb]
  · simp [applyChangeOnClose, hb, h]

/-- Witness for the amended C7 at exit code 137. -/
theorem c7_amended_witness :
    (flatlayOnClose { exitCode := some 137, stdout := str "out", stderr := str "err" }).1 =
      { status := 500, success := false, error := some (scriptFailedMsg (some 137)),
        raw_stdout := some (str "out"), raw_stderr := some (str "err") } ∧
    (applyChangeOnClose {}
        { exitCode := some 137, stdout := str "out", stderr := str "err" }).1 =
      { status := 500, success := false,
        error := some (str "Python script exited with code " ++ showExitCode (some 137)),
        raw_stdout := some ((str "out").take 2000),
        raw_stderr := some ((str "err").take 8000) } :=
  ⟨(c7_amended {} {} { exitCode := some 137, stdout := str "out", stderr := str "err" }
      (by decide)).1,
   (c7_amended {} {} { exitCode := some 137, stdout := str "out", stderr := str "err" }
      (by decide)).2.2.2⟩

/-! ## C9: model-config normalization has no default for `gender` -/

/-- C9 (counterexample to the claim as stated): on the truthy empty
configuration, `gender` receives no default (it is `undefined`), and on a
falsy input the function returns the empty object rather than the defaulted
schema. -/
theorem c9_counterexample :
    normalizeModelConfigForBackend (some {}) =
      { gender := none, age_range := some (str "25-32"), body_type := some (str "slim"),
        skin_tone := some (str "medium"), pose := some (str "standing"),
        framing := some (str "full-body, studio frame, no close-ups") } ∧
    normalizeModelConfigForBackend none = ({} : BackendCfg) := by
  constructor
  · decide
  · rfl

/-- C9 (amended): for a truthy input, the five fields age_range, body_type,
skin_tone, pose and framing receive defaults when absent, while `gender` is
passed through with no default; a falsy input yields the empty object. -/
theorem c9_amended (cfg : ModelCfg) :
    (cfg.gender = none → (normalizeModelConfigForBackend (some cfg)).gender = none) ∧
    (cfg.ageRange = none → cfg.age_range = none →
      (normalizeModelConfigForBackend (some cfg)).age_range = some (str "25-32")) ∧
    (cfg.bodyType = none → cfg.body_type = none →
      (normalizeModelConfigForBackend (some cfg)).body_type = some (str "slim")) ∧
    (cfg.skinTone = none → cfg.skin_tone = none →
      (normalizeModelConfigForBackend (some cfg)).skin_tone = some (str "medium")) ∧
    (cfg.pose = none → (normalizeModelConfigForBackend (some cfg)).pose = some (str "standing")) ∧
    (cfg.framing = none → (normalizeModelConfigForBackend (some cfg)).framing =
      some (str "full-body, studio frame, no close-ups")) ∧
    normalizeModelConfigForBackend none = ({} : BackendCfg) := by
  refine ⟨fun h => ?_, fun h h2 => ?_, fun h h2 => ?_, fun h h2 => ?_,
    fun h => ?_, fun h => ?_, rfl⟩
  all_goals simp [normalizeModelConfigForBackend, jsOrOpt, jsOrOptD, jsTruthy, *]

/-- Witness for the amended C9 at the empty configuration. -/
theorem c9_amended_witness :
    (normalizeModelConfigForBackend (some {})).gender = none ∧
    (normalizeModelConfigForBackend (some {})).age_range = some (str "25-32") :=
  ⟨(c9_amended {}).1 rfl, (c9_amended {}).2.1 rfl rfl⟩

end Fashion
